import Mathlib

/-!
Verification of the budget-allocation optimization engine of the
Operational-Research repository (`opti.py` and `BudgetSenarioAnalysis.py`).

The source builds, for each "scenario", a linear program over decision
variables keyed by (Program, ExpenseCategory): one variable per key stored in
a Python dict `budget_vars`, with lower bound 0 and upper bound the row's
FY25Budget value.  Python dict semantics matter: iterating the data frame
row-by-row and assigning `budget_vars[(program, category)] = var` keeps the
key at its FIRST insertion position but OVERWRITES the stored variable, so a
duplicated key ends up with the upper bound of its LAST matching row.

We embed the table as a `List Row` (the prepared data frame, budget columns
already coerced to numbers), constraints as explicit linear inequalities over
the variable keys, and each scenario as the list of constraints the Python
code adds to the solver.  Allocations are functions `Key → ℚ`; feasibility,
optimality and the post-solve result packaging are defined below, each
mirroring one source function.
-/

namespace BudgetOpt

/-- A decision-variable key: (Program, ExpenseCategory). -/
abbrev Key := String × String

/-- One prepared row of the BudgetData table (budget columns already numeric,
after the `pd.to_numeric(..., errors='coerce').fillna(0)` step). -/
structure Row where
  program : String
  category : String
  dept : String
  fy23 : ℚ
  fy24 : ℚ
  fy25 : ℚ
deriving DecidableEq

/-- The decision-variable key of a row, as used by `budget_vars[(program, expense_category)]`. -/
def rowKey (r : Row) : Key := (r.program, r.category)

/-- First-occurrence deduplication: the order in which distinct values appear.
This is both Python dict key order (first insertion wins the position) and
pandas `.unique()` order. -/
def dedupFirst {α : Type} [DecidableEq α] : List α → List α
  | [] => []
  | a :: l => a :: (dedupFirst l).filter (fun b => decide (b ≠ a))

/-- The decision-variable keys of `budget_vars`, in dict (first-insertion) order.
Embeds the loop of `initialize_solver` (opti.py lines 41-50,
BudgetSenarioAnalysis.py lines 43-53). -/
def varKeys (df : List Row) : List Key := dedupFirst (df.map rowKey)

/-- The upper bound of the decision variable stored for key `k`: the FY25Budget
of the LAST row with that key (dict assignment overwrites), 0 if no row matches.
Embeds `solver.NumVar(0, fy25_budget, ...)` under dict-overwrite semantics. -/
def varUB (df : List Row) (k : Key) : ℚ :=
  match (df.filter (fun r => decide (rowKey r = k))).getLast? with
  | some r => r.fy25
  | none => 0

/-- The department a key is attributed to: the Dept of the FIRST source row
matching the (program, category) pair.  Embeds
`df[(df['Program'] == program) & (df['ExpenseCategory'] == category)]['Dept'].values[0]`. -/
def deptOf (df : List Row) (k : Key) : Option String :=
  (df.find? (fun r => decide (rowKey r = k))).map Row.dept

/-- `operating_budget_df['FY25Budget'].sum()`: sum over ALL rows (duplicates included). -/
def totalFy25 (df : List Row) : ℚ := (df.map Row.fy25).sum

/-- The distinct departments (groupby keys; order immaterial here). -/
def depts (df : List Row) : List String := dedupFirst (df.map Row.dept)

/-- The distinct expense categories. -/
def cats (df : List Row) : List String := dedupFirst (df.map Row.category)

/-- The distinct programs (`self.programs = self.df['Program'].unique()`). -/
def programs (df : List Row) : List String := dedupFirst (df.map Row.program)

/-- `groupby('Dept')['FY24Appropriation'].sum()` for department `d`. -/
def deptFy24 (df : List Row) (d : String) : ℚ :=
  ((df.filter (fun r => decide (r.dept = d))).map Row.fy24).sum

/-- `groupby('Dept')['FY23ActualExpense'].sum()` for department `d`. -/
def deptFy23 (df : List Row) (d : String) : ℚ :=
  ((df.filter (fun r => decide (r.dept = d))).map Row.fy23).sum

/-- `groupby('ExpenseCategory')['FY23ActualExpense'].mean()` for category `c`:
sum of the group divided by its row count. -/
def catMeanFy23 (df : List Row) (c : String) : ℚ :=
  ((df.filter (fun r => decide (r.category = c))).map Row.fy23).sum /
    (df.filter (fun r => decide (r.category = c))).length

/-- Direction of a linear constraint. -/
inductive Cmp where
  | le : Cmp
  | ge : Cmp
deriving DecidableEq

/-- One linear constraint added by `solver.Add`: the sum of the decision
variables listed in `terms` compared against `rhs`. -/
structure LinCon where
  terms : List Key
  cmp : Cmp
  rhs : ℚ
deriving DecidableEq

/-- Satisfaction of one constraint by an allocation. -/
def conHolds (x : Key → ℚ) (c : LinCon) : Prop :=
  match c.cmp with
  | Cmp.le => (c.terms.map x).sum ≤ c.rhs
  | Cmp.ge => c.rhs ≤ (c.terms.map x).sum

/-- The keys whose variable is attributed to department `d` — the terms of a
department-cap constraint (`... if df[...]['Dept'].values[0] == dept`). -/
def deptGroup (df : List Row) (d : String) : List Key :=
  (varKeys df).filter (fun k => decide (deptOf df k = some d))

/-- The total-budget cap `sum(budget_vars[...]) <= df['FY25Budget'].sum()`
present in every scenario. -/
def totalCon (df : List Row) : LinCon := ⟨varKeys df, Cmp.le, totalFy25 df⟩

/-- The department caps of opti.py scenarios 2/4/5: for each department,
sum of its attributed variables ≤ `m ×` its FY24Appropriation group sum. -/
def optiDeptCons (df : List Row) (m : ℚ) : List LinCon :=
  (depts df).map (fun d => ⟨deptGroup df d, Cmp.le, m * deptFy24 df d⟩)

/-- The "category" caps of opti.py scenarios 3/6 as actually written: the
generator clause `for (program, category) in budget_vars if category == category`
shadows the loop's `category`, so each constraint sums ALL decision variables,
and the right-hand side is `frac * total_fy25_budget` (the group sum
`category_budget` is unused). One such constraint per distinct category. -/
def optiCatCons (df : List Row) (frac : ℚ) : List LinCon :=
  (cats df).map (fun _ => ⟨varKeys df, Cmp.le, frac * totalFy25 df⟩)

/-- opti.py `scenario_1` (lines 121-132): total cap only. -/
def opti_scenario_1 (df : List Row) : List LinCon := [totalCon df]

/-- opti.py `scenario_2` (lines 135-153): total cap + department caps at 110%
of FY24Appropriation. -/
def opti_scenario_2 (df : List Row) : List LinCon :=
  totalCon df :: optiDeptCons df (11/10)

/-- opti.py `scenario_3` (lines 156-172): total cap + the shadowed category
caps at 10% of the total FY25 budget. -/
def opti_scenario_3 (df : List Row) : List LinCon :=
  totalCon df :: optiCatCons df (1/10)

/-- opti.py `scenario_4` (lines 175-193): total cap + department caps at 100%
of FY24Appropriation. -/
def opti_scenario_4 (df : List Row) : List LinCon :=
  totalCon df :: optiDeptCons df 1

/-- opti.py `scenario_5` (lines 196-214): total cap + department caps at 105%
of FY24Appropriation. -/
def opti_scenario_5 (df : List Row) : List LinCon :=
  totalCon df :: optiDeptCons df (21/20)

/-- opti.py `scenario_6` (lines 217-233): total cap + the shadowed category
caps at 30% of the total FY25 budget. -/
def opti_scenario_6 (df : List Row) : List LinCon :=
  totalCon df :: optiCatCons df (3/10)

/-- BudgetSenarioAnalysis.py department caps (scenario_1 lines 82-90): for each
department, sum of attributed variables ≤ its FY23ActualExpense group sum,
added only `if dept_vars:` (non-empty term list). -/
def bsaDeptCons (df : List Row) : List LinCon :=
  ((depts df).map (fun d => LinCon.mk (deptGroup df d) Cmp.le (deptFy23 df d))).filter
    (fun c => decide (c.terms ≠ []))

/-- BudgetSenarioAnalysis.py category caps (scenario_2 lines 96-103): for each
category, the variables `budget_vars[(program, category)] for program in
self.programs if (program, category) in budget_vars` ≤ the category's mean
FY23ActualExpense, added only `if category_vars:`. -/
def bsaCatCons (df : List Row) : List LinCon :=
  ((cats df).map (fun c =>
      LinCon.mk (((programs df).filter (fun p => decide ((p, c) ∈ varKeys df))).map
        (fun p => (p, c))) Cmp.le (catMeanFy23 df c))).filter
    (fun c => decide (c.terms ≠ []))

/-- The protected programs of scenarios 3 and 4. -/
def keyPrograms : List String := ["Mayor\x27s Administration", "Public Safety"]

/-- BudgetSenarioAnalysis.py minimum-funding floors (scenario_3 lines 109-118,
scenario_4 lines 124-133): for each key program and each of its rows,
`budget_vars[(program, category)] >= 0.5 * row['FY24Appropriation']`
when the key exists. -/
def bsaFloors (df : List Row) : List LinCon :=
  (keyPrograms.map (fun p =>
    (df.filter (fun r => decide (r.program = p))).filterMap (fun r =>
      if (p, r.category) ∈ varKeys df then
        some (LinCon.mk [(p, r.category)] Cmp.ge ((1/2) * r.fy24))
      else none))).flatten

/-- BudgetSenarioAnalysis.py `scenario_1` (lines 71-90). -/
def bsa_scenario_1 (df : List Row) : List LinCon := totalCon df :: bsaDeptCons df

/-- BudgetSenarioAnalysis.py `scenario_2` (lines 92-103): it first calls
`self.scenario_1(solver, budget_vars)`, then adds the category caps. -/
def bsa_scenario_2 (df : List Row) : List LinCon := bsa_scenario_1 df ++ bsaCatCons df

/-- BudgetSenarioAnalysis.py `scenario_3` (lines 105-118): `scenario_1` plus
the minimum-funding floors. -/
def bsa_scenario_3 (df : List Row) : List LinCon := bsa_scenario_1 df ++ bsaFloors df

/-- BudgetSenarioAnalysis.py `scenario_4` (lines 120-133): `scenario_2` plus
the minimum-funding floors. -/
def bsa_scenario_4 (df : List Row) : List LinCon := bsa_scenario_2 df ++ bsaFloors df

/-- The variable bounds `0 <= x_k <= varUB k` declared by `solver.NumVar`. -/
def inBounds (df : List Row) (x : Key → ℚ) : Prop :=
  ∀ k ∈ varKeys df, 0 ≤ x k ∧ x k ≤ varUB df k

/-- Feasibility of an allocation for a scenario: the variable bounds plus every
constraint the scenario added. -/
def feasible (df : List Row) (cons : List LinCon) (x : Key → ℚ) : Prop :=
  inBounds df x ∧ ∀ c ∈ cons, conHolds x c

/-- The objective value: every decision variable has coefficient 1
(`objective.SetCoefficient(var, 1)`; maximization). -/
def objVal (df : List Row) (x : Key → ℚ) : ℚ := ((varKeys df).map x).sum

/-- `x` is an optimal solution of the scenario. -/
def isOptimal (df : List Row) (cons : List LinCon) (x : Key → ℚ) : Prop :=
  feasible df cons x ∧ ∀ y, feasible df cons y → objVal df y ≤ objVal df x

/-- `v` is the scenario's optimal objective value. -/
def isOptimalValue (df : List Row) (cons : List LinCon) (v : ℚ) : Prop :=
  ∃ x, isOptimal df cons x ∧ objVal df x = v

/-- Sum allocated to one expense category across the decision variables. -/
def catSum (df : List Row) (c : String) (x : Key → ℚ) : ℚ :=
  (((varKeys df).filter (fun k => decide (k.2 = c))).map x).sum

/-- Sum allocated to the variables attributed to one department. -/
def deptSum (df : List Row) (d : String) (x : Key → ℚ) : ℚ :=
  ((deptGroup df d).map x).sum

/-- The solver outcome statuses of the LP backend (`pywraplp`). -/
inductive SolveStatus where
  | OPTIMAL : SolveStatus
  | FEASIBLE : SolveStatus
  | INFEASIBLE : SolveStatus
  | UNBOUNDED : SolveStatus
  | ABNORMAL : SolveStatus
  | NOT_SOLVED : SolveStatus
deriving DecidableEq

/-- One row of the result DataFrame built by `solve_scenario`. -/
structure ResultRow where
  program : String
  category : String
  alloc : ℚ
deriving DecidableEq

/-- The result packaging of `BudgetScenarioAnalyzer.solve_scenario`
(lines 55-69): given the backend's status and solution values, it returns one
row per dict key when the status is OPTIMAL, and an empty DataFrame (here: the
empty list of rows) for every other status. -/
def solve_scenario (df : List Row) (status : SolveStatus) (sol : Key → ℚ) :
    List ResultRow :=
  if status = SolveStatus.OPTIMAL then
    (varKeys df).map (fun k => ⟨k.1, k.2, sol k⟩)
  else []

/-- A raw row as fetched from the database before `prepare_data`: each budget
column is either a parsed finite number or an unparseable/missing marker
(`none`), mirroring `pd.to_numeric(..., errors='coerce')` which yields NaN
exactly on the unparseable entries. -/
structure RawRow where
  program : String
  category : String
  dept : String
  fy23 : Option ℚ
  fy24 : Option ℚ
  fy25 : Option ℚ
deriving DecidableEq

/-- The `.fillna(0)` step applied to one coerced cell. -/
def coerceNum (v : Option ℚ) : ℚ := v.getD 0

/-- Numeric preparation of one row: each budget column coerced, 0 on failure. -/
def prepareRow (r : RawRow) : Row :=
  ⟨r.program, r.category, r.dept, coerceNum r.fy23, coerceNum r.fy24, coerceNum r.fy25⟩

/-- `prepare_data` / the coercion block of `fetch_data_from_mysql`
(opti.py lines 22-26, BudgetSenarioAnalysis.py lines 32-41): coerce the three
budget columns of every row; no row is dropped and no error is raised. -/
def prepare_data (raws : List RawRow) : List Row := raws.map prepareRow

/-- Replacing every unparseable marker by an explicit parsed 0. -/
def fillZero (r : RawRow) : RawRow :=
  ⟨r.program, r.category, r.dept, some (coerceNum r.fy23), some (coerceNum r.fy24),
    some (coerceNum r.fy25)⟩

/-- The two-row ledger of the spec's concrete scenario (§8). -/
def exampleDF : List Row :=
  [⟨"ProgA", "Personnel", "DeptX", 100, 120, 150⟩,
   ⟨"ProgB", "Supplies", "DeptX", 50, 60, 80⟩]

/-- A table with two rows sharing the (program, category) key. -/
def dupDF : List Row :=
  [⟨"P", "C", "D", 0, 0, 10⟩,
   ⟨"P", "C", "D", 0, 0, 20⟩]

/-- A table where two rows share the key but name different departments. -/
def conflictDF : List Row :=
  [⟨"P", "C", "D1", 0, 0, 5⟩,
   ⟨"P", "C", "D2", 0, 0, 7⟩]

/-- The synthetic infeasible ledger of the spec (§8): the minimum-funding floor
for the key program requires 0.5 × 120 = 60 while the department cap derived
from FY23ActualExpense is 50. -/
def df5 : List Row := [⟨"Public Safety", "Personnel", "DeptX", 50, 120, 150⟩]

/-! ### Basic lemmas about the embedding -/

theorem mem_dedupFirst {α : Type} [DecidableEq α] {a : α} :
    ∀ {l : List α}, a ∈ dedupFirst l ↔ a ∈ l
  | [] => Iff.rfl
  | b :: l => by
    simp only [dedupFirst, List.mem_cons, List.mem_filter, decide_eq_true_eq,
      mem_dedupFirst (l := l)]
    by_cases hab : a = b
    · simp [hab]
    · simp [hab]

theorem nodup_dedupFirst {α : Type} [DecidableEq α] : ∀ (l : List α), (dedupFirst l).Nodup
  | [] => List.nodup_nil
  | b :: l => by
    refine List.Nodup.cons ?_ (List.Nodup.filter _ (nodup_dedupFirst l))
    intro hb
    rcases List.mem_filter.mp hb with ⟨-, hne⟩
    exact (decide_eq_true_eq.mp hne) rfl

theorem dedupFirst_eq_self {α : Type} [DecidableEq α] :
    ∀ {l : List α}, l.Nodup → dedupFirst l = l
  | [], _ => rfl
  | b :: l, h => by
    have hbl : b ∉ l := (List.nodup_cons.mp h).1
    have ih := dedupFirst_eq_self (List.nodup_cons.mp h).2
    simp only [dedupFirst, ih]
    congr 1
    refine List.filter_eq_self.mpr ?_
    intro a ha
    exact decide_eq_true_eq.mpr (fun hab => hbl (hab ▸ ha))

theorem filter_eq_singleton {α : Type} [DecidableEq α] :
    ∀ {l : List α}, l.Nodup → ∀ {a : α}, a ∈ l →
      l.filter (fun b => decide (b = a)) = [a]
  | [], _, a, ha => absurd ha (List.not_mem_nil a)
  | b :: l, h, a, ha => by
    rcases List.mem_cons.mp ha with hab | hal
    · subst hab
      have hnil : l.filter (fun c => decide (c = a)) = [] := by
        refine List.filter_eq_nil_iff.mpr ?_
        intro c hc hca
        exact (List.nodup_cons.mp h).1 ((decide_eq_true_eq.mp hca) ▸ hc)
      simp [List.filter_cons, hnil]
    · have hba : b ≠ a := fun he => (List.nodup_cons.mp h).1 (he ▸ hal)
      have ih := filter_eq_singleton (List.nodup_cons.mp h).2 hal
      simp [List.filter_cons, hba, ih]

theorem mem_varKeys {df : List Row} {k : Key} :
    k ∈ varKeys df ↔ ∃ r ∈ df, rowKey r = k := by
  simp [varKeys, mem_dedupFirst]

theorem nodup_varKeys (df : List Row) : (varKeys df).Nodup :=
  nodup_dedupFirst _

/-- Under unique keys, the dict keys are exactly the rows' keys in row order. -/
theorem varKeys_of_nodup {df : List Row} (hnd : (df.map rowKey).Nodup) :
    varKeys df = df.map rowKey :=
  dedupFirst_eq_self hnd

/-- Under unique keys, each row's variable keeps that row's FY25Budget bound. -/
theorem varUB_of_nodup : ∀ {df : List Row}, (df.map rowKey).Nodup →
    ∀ {r : Row}, r ∈ df → varUB df (rowKey r) = r.fy25
  | [], _, _, hr => absurd hr (List.not_mem_nil _)
  | s :: df, hnd, r, hr => by
    rcases List.mem_cons.mp hr with hr | hr
    · subst hr
      have hnone : df.filter (fun t => decide (rowKey t = rowKey r)) = [] := by
        refine List.filter_eq_nil_iff.mpr ?_
        intro t ht hkey
        have : rowKey r ∈ df.map rowKey :=
          List.mem_map.mpr ⟨t, ht, decide_eq_true_eq.mp hkey⟩
        exact (List.nodup_cons.mp (by simpa using hnd)).1 this
      simp [varUB, hnone]
    · have hne : rowKey s ≠ rowKey r := by
        intro he
        have : rowKey r ∈ df.map rowKey := List.mem_map.mpr ⟨r, hr, rfl⟩
        exact (List.nodup_cons.mp (by simpa using hnd)).1 (he ▸ this)
      have hnd' : (df.map rowKey).Nodup := by
        simpa using (List.nodup_cons.mp (by simpa using hnd)).2
      have ih := varUB_of_nodup hnd' hr
      simpa [varUB, hne] using ih

/-- A filtered selection of variables never sums above the full objective when
all selected variables are nonnegative. -/
theorem sum_filter_le_sum {l : List Key} {x : Key → ℚ} (h : ∀ k ∈ l, 0 ≤ x k)
    (p : Key → Bool) : ((l.filter p).map x).sum ≤ (l.map x).sum := by
  induction l with
  | nil => simp
  | cons a l ih =>
    have ha := h a (List.mem_cons_self a l)
    have ihl := ih (fun k hk => h k (List.mem_cons_of_mem a hk))
    by_cases hp : p a
    · simpa [List.filter_cons, hp] using add_le_add_left ihl (x a)
    · simp only [List.filter_cons, hp, Bool.false_eq_true, if_false, List.map_cons, List.sum_cons]
      calc ((l.filter p).map x).sum ≤ (l.map x).sum := ihl
        _ ≤ x a + (l.map x).sum := le_add_of_nonneg_left ha

/-- Feasibility for a composed constraint list gives feasibility for the base list. -/
theorem feasible_append_left {df : List Row} {l₁ l₂ : List LinCon} {x : Key → ℚ}
    (h : feasible df (l₁ ++ l₂) x) : feasible df l₁ x :=
  ⟨h.1, fun c hc => h.2 c (List.mem_append_left _ hc)⟩

/-- With unique keys and nonnegative proposed budgets, setting every variable
to its upper bound is optimal for the total-cap-only scenario and attains
exactly the total proposed budget. -/
theorem scenario1_exists_opt (df : List Row) (hnd : (df.map rowKey).Nodup)
    (hnn : ∀ r ∈ df, 0 ≤ r.fy25) :
    ∃ x, isOptimal df (opti_scenario_1 df) x ∧ objVal df x = totalFy25 df := by
  have hobj : objVal df (varUB df) = totalFy25 df := by
    unfold objVal totalFy25
    rw [varKeys_of_nodup hnd, List.map_map]
    exact congrArg List.sum (List.map_congr_left (fun r hr => varUB_of_nodup hnd hr))
  refine ⟨varUB df, ⟨⟨?_, ?_⟩, ?_⟩, hobj⟩
  · intro k hk
    rcases mem_varKeys.mp hk with ⟨r, hr, hkey⟩
    subst hkey
    rw [varUB_of_nodup hnd hr]
    exact ⟨hnn r hr, le_refl _⟩
  · intro c hc
    rcases List.mem_singleton.mp hc with rfl
    show ((varKeys df).map (varUB df)).sum ≤ totalFy25 df
    exact le_of_eq hobj
  · intro y hy
    unfold objVal
    refine List.sum_le_sum ?_
    intro k hk
    exact (hy.1 k hk).2

/-- C1: with unique (program, category) keys, the total-cap-only scenario
(`scenario_1` of opti.py) has an optimal allocation whose total equals the full
FY25 proposed budget; on the spec's concrete two-row ledger the optimum is
ProgA/Personnel = 150 and ProgB/Supplies = 80 (sum 230). -/
theorem scenario1_allocates_total (df : List Row) (hnd : (df.map rowKey).Nodup)
    (hnn : ∀ r ∈ df, 0 ≤ r.fy25) :
    (∃ x, isOptimal df (opti_scenario_1 df) x ∧ objVal df x = totalFy25 df) ∧
    (∀ x, isOptimal exampleDF (opti_scenario_1 exampleDF) x →
      x ("ProgA", "Personnel") = 150 ∧ x ("ProgB", "Supplies") = 80) := by
  refine ⟨scenario1_exists_opt df hnd hnn, ?_⟩
  intro x hx
  obtain ⟨w, hw, hwv⟩ := scenario1_exists_opt exampleDF (by decide) (by decide)
  have htot : totalFy25 exampleDF = 230 := by
    norm_num [totalFy25, exampleDF]
  have h230 : (230 : ℚ) ≤ objVal exampleDF x := by
    have := hx.2 w hw.1
    rw [hwv, htot] at this
    linarith [hx.2 w hw.1, hwv]
  have hvk : varKeys exampleDF = [("ProgA", "Personnel"), ("ProgB", "Supplies")] := by decide
  have hA := hx.1.1 ("ProgA", "Personnel") (by rw [hvk]; simp)
  have hB := hx.1.1 ("ProgB", "Supplies") (by rw [hvk]; simp)
  have hubA : varUB exampleDF ("ProgA", "Personnel") = 150 := by decide
  have hubB : varUB exampleDF ("ProgB", "Supplies") = 80 := by decide
  rw [hubA] at hA
  rw [hubB] at hB
  have hobj : objVal exampleDF x = x ("ProgA", "Personnel") + x ("ProgB", "Supplies") := by
    unfold objVal
    rw [hvk]
    simp
  rw [hobj] at h230
  exact ⟨by linarith [hA.2, hB.2], by linarith [hA.2, hB.2]⟩

/-- Concrete instantiation of `scenario1_allocates_total` at the two-row ledger. -/
theorem scenario1_allocates_total_witness :
    (∃ x, isOptimal exampleDF (opti_scenario_1 exampleDF) x ∧
      objVal exampleDF x = totalFy25 exampleDF) ∧
    (∀ x, isOptimal exampleDF (opti_scenario_1 exampleDF) x →
      x ("ProgA", "Personnel") = 150 ∧ x ("ProgB", "Supplies") = 80) :=
  scenario1_allocates_total exampleDF (by decide) (by decide)

/-- C3 counterexample: on a table whose two rows share the key ("P", "C") with
proposed budgets 10 and 20, the LP has exactly one decision variable for the
pair, but its upper bound is 20 — the last row's value — not the claimed
aggregate 10 + 20 = 30. -/
theorem dup_key_not_summed :
    varKeys dupDF = [("P", "C")] ∧ varUB dupDF ("P", "C") = 20 ∧
      varUB dupDF ("P", "C") ≠ 10 + 20 := by
  have h2 : varUB dupDF ("P", "C") = 20 := by decide
  refine ⟨by decide, h2, ?_⟩
  rw [h2]
  norm_num

/-- C3 amended: a duplicated (program, category) pair yields exactly one
decision variable, and its upper bound is the proposed budget of the LAST
matching row — appending a further row with the same key overwrites the bound
with that row's value (Python dict assignment), with no summation. -/
theorem dup_key_last_row_bound (df : List Row) (k : Key) (h : k ∈ varKeys df)
    (r : Row) (hr : rowKey r = k) :
    ((varKeys df).filter (fun j => decide (j = k))).length = 1 ∧
      varUB (df ++ [r]) k = r.fy25 := by
  refine ⟨by rw [filter_eq_singleton (nodup_varKeys df) h]; rfl, ?_⟩
  unfold varUB
  rw [List.filter_append]
  have h1 : [r].filter (fun s => decide (rowKey s = k)) = [r] := by simp [hr]
  rw [h1, List.getLast?_append]
  simp

/-- Concrete instantiation of `dup_key_last_row_bound`: appending a third row
with key ("P", "C") and budget 7 moves the bound to 7. -/
theorem dup_key_last_row_bound_witness :
    ((varKeys dupDF).filter (fun j => decide (j = ("P", "C")))).length = 1 ∧
      varUB (dupDF ++ [⟨"P", "C", "D", 0, 0, 7⟩]) ("P", "C") = (⟨"P", "C", "D", 0, 0, 7⟩ : Row).fy25 :=
  dup_key_last_row_bound dupDF ("P", "C") (by decide) ⟨"P", "C", "D", 0, 0, 7⟩ (by decide)

/-- C9: every decision variable is attributed to exactly one department: the
department of the FIRST source row matching its (program, category) pair, so
it is counted toward exactly one department-cap group even when later rows
list a different department. -/
theorem dept_attribution_unique (df : List Row) (k : Key) (h : k ∈ varKeys df) :
    ∃ r, df.find? (fun s => decide (rowKey s = k)) = some r ∧ rowKey r = k ∧
      deptOf df k = some r.dept ∧ ∀ d, (k ∈ deptGroup df d ↔ d = r.dept) := by
  rcases mem_varKeys.mp h with ⟨r₀, hr₀, hkey⟩
  have hsome : (df.find? (fun s => decide (rowKey s = k))).isSome :=
    List.find?_isSome.mpr ⟨r₀, hr₀, by simp [hkey]⟩
  obtain ⟨r, hr⟩ := Option.isSome_iff_exists.mp hsome
  have hrk : rowKey r = k := by simpa using List.find?_some hr
  have hdept : deptOf df k = some r.dept := by
    unfold deptOf
    rw [hr]
    rfl
  refine ⟨r, hr, hrk, hdept, ?_⟩
  intro d
  constructor
  · intro hd
    have hmem := List.mem_filter.mp hd
    have h2 := decide_eq_true_eq.mp hmem.2
    rw [hdept] at h2
    exact (Option.some_inj.mp h2).symm
  · intro hd
    subst hd
    exact List.mem_filter.mpr ⟨h, decide_eq_true_eq.mpr hdept⟩

/-- Concrete instantiation of `dept_attribution_unique` on a table whose two
rows share the key but disagree on the department. -/
theorem dept_attribution_unique_witness :
    ∃ r, conflictDF.find? (fun s => decide (rowKey s = ("P", "C"))) = some r ∧
      rowKey r = ("P", "C") ∧ deptOf conflictDF ("P", "C") = some r.dept ∧
      ∀ d, (("P", "C") ∈ deptGroup conflictDF d ↔ d = r.dept) :=
  dept_attribution_unique conflictDF ("P", "C") (by decide)

/-- C10: `solve_scenario` returns one result row per decision-variable key, in
dict (first-insertion) order, when the backend status is OPTIMAL, and the
empty DataFrame for every other status. -/
theorem solve_scenario_shape (df : List Row) (status : SolveStatus) (sol : Key → ℚ) :
    (status ≠ SolveStatus.OPTIMAL → solve_scenario df status sol = []) ∧
    (status = SolveStatus.OPTIMAL →
      (solve_scenario df status sol).map (fun row => (row.program, row.category)) =
        varKeys df ∧ (varKeys df).Nodup) := by
  constructor
  · intro h
    simp [solve_scenario, h]
  · intro h
    subst h
    refine ⟨?_, nodup_varKeys df⟩
    have hcomp : (fun (row : ResultRow) => (row.program, row.category)) ∘
        (fun (k : Key) => (⟨k.1, k.2, sol k⟩ : ResultRow)) = id := by
      funext k
      rfl
    simp only [solve_scenario, eq_self_iff_true, if_true, List.map_map, hcomp, List.map_id]

/-- Concrete instantiation of `solve_scenario_shape` at an OPTIMAL and at an
INFEASIBLE status on the two-row ledger. -/
theorem solve_scenario_shape_witness :
    ((SolveStatus.OPTIMAL ≠ SolveStatus.OPTIMAL →
        solve_scenario exampleDF SolveStatus.OPTIMAL (fun _ => 0) = []) ∧
      (SolveStatus.OPTIMAL = SolveStatus.OPTIMAL →
        (solve_scenario exampleDF SolveStatus.OPTIMAL (fun _ => 0)).map
            (fun row => (row.program, row.category)) = varKeys exampleDF ∧
          (varKeys exampleDF).Nodup)) :=
  solve_scenario_shape exampleDF SolveStatus.OPTIMAL (fun _ => 0)

/-- C6: scenario composition only ever appends constraints, so a composed
scenario's feasible allocations are feasible for the scenario it extends:
scenario_2, scenario_3 and scenario_4 of BudgetSenarioAnalysis.py all restrict
scenario_1, and scenario_4 restricts scenario_2. -/
theorem extension_feasible_subset (df : List Row) (x : Key → ℚ) :
    (feasible df (bsa_scenario_2 df) x → feasible df (bsa_scenario_1 df) x) ∧
    (feasible df (bsa_scenario_3 df) x → feasible df (bsa_scenario_1 df) x) ∧
    (feasible df (bsa_scenario_4 df) x → feasible df (bsa_scenario_2 df) x) ∧
    (feasible df (bsa_scenario_4 df) x → feasible df (bsa_scenario_1 df) x) := by
  refine ⟨fun h => feasible_append_left h, fun h => feasible_append_left h,
    fun h => feasible_append_left h, fun h => feasible_append_left (feasible_append_left h)⟩

/-- Concrete instantiation of `extension_feasible_subset` on the two-row ledger. -/
theorem extension_feasible_subset_witness :
    (feasible exampleDF (bsa_scenario_2 exampleDF) (fun _ => 0) →
      feasible exampleDF (bsa_scenario_1 exampleDF) (fun _ => 0)) ∧
    (feasible exampleDF (bsa_scenario_3 exampleDF) (fun _ => 0) →
      feasible exampleDF (bsa_scenario_1 exampleDF) (fun _ => 0)) ∧
    (feasible exampleDF (bsa_scenario_4 exampleDF) (fun _ => 0) →
      feasible exampleDF (bsa_scenario_2 exampleDF) (fun _ => 0)) ∧
    (feasible exampleDF (bsa_scenario_4 exampleDF) (fun _ => 0) →
      feasible exampleDF (bsa_scenario_1 exampleDF) (fun _ => 0)) :=
  extension_feasible_subset exampleDF (fun _ => 0)

/-- C7: constraints are simultaneous, so permuting a scenario's constraint
list leaves the feasible set, and hence the optimal objective value, unchanged. -/
theorem constraint_order_invariance (df : List Row) (l₁ l₂ : List LinCon)
    (h : l₁.Perm l₂) :
    (∀ x, feasible df l₁ x ↔ feasible df l₂ x) ∧
    (∀ v, isOptimalValue df l₁ v ↔ isOptimalValue df l₂ v) := by
  have hf : ∀ x, feasible df l₁ x ↔ feasible df l₂ x := by
    intro x
    constructor
    · rintro ⟨hb, hc⟩
      exact ⟨hb, fun c hcm => hc c (h.mem_iff.mpr hcm)⟩
    · rintro ⟨hb, hc⟩
      exact ⟨hb, fun c hcm => hc c (h.mem_iff.mp hcm)⟩
  refine ⟨hf, ?_⟩
  intro v
  constructor
  · rintro ⟨x, ⟨hfx, hmax⟩, hv⟩
    exact ⟨x, ⟨(hf x).mp hfx, fun y hy => hmax y ((hf y).mpr hy)⟩, hv⟩
  · rintro ⟨x, ⟨hfx, hmax⟩, hv⟩
    exact ⟨x, ⟨(hf x).mpr hfx, fun y hy => hmax y ((hf y).mp hy)⟩, hv⟩

/-- Concrete instantiation of `constraint_order_invariance`: reversing the
constraint list of opti.py scenario_2 on the two-row ledger. -/
theorem constraint_order_invariance_witness :
    (∀ x, feasible exampleDF ((opti_scenario_2 exampleDF).reverse) x ↔
      feasible exampleDF (opti_scenario_2 exampleDF) x) ∧
    (∀ v, isOptimalValue exampleDF ((opti_scenario_2 exampleDF).reverse) v ↔
      isOptimalValue exampleDF (opti_scenario_2 exampleDF) v) :=
  constraint_order_invariance exampleDF _ _ (List.reverse_perm _)

theorem fst_mem_programs {df : List Row} {k : Key} (h : k ∈ varKeys df) :
    k.1 ∈ programs df := by
  rcases mem_varKeys.mp h with ⟨r, hr, hk⟩
  subst hk
  exact mem_dedupFirst.mpr (List.mem_map.mpr ⟨r, hr, rfl⟩)

/-- The term list of a BudgetSenarioAnalysis category cap enumerates exactly
the decision variables of that category (possibly in a different order). -/
theorem bsaCat_terms_perm (df : List Row) (c : String) :
    (((programs df).filter (fun p => decide ((p, c) ∈ varKeys df))).map
        (fun p => (p, c))).Perm
      ((varKeys df).filter (fun k => decide (k.2 = c))) := by
  have nd1 : (((programs df).filter (fun p => decide ((p, c) ∈ varKeys df))).map
      (fun p => (p, c))).Nodup := by
    refine List.Nodup.map ?_ (List.Nodup.filter _ (nodup_dedupFirst _))
    intro p q hpq
    simpa using congrArg Prod.fst hpq
  have nd2 := List.Nodup.filter (fun k => decide (k.2 = c)) (nodup_varKeys df)
  refine (List.perm_ext_iff_of_nodup nd1 nd2).mpr ?_
  intro k
  constructor
  · intro hk
    rcases List.mem_map.mp hk with ⟨p, hp, hpk⟩
    rcases List.mem_filter.mp hp with ⟨hpp, hpv⟩
    subst hpk
    exact List.mem_filter.mpr ⟨decide_eq_true_eq.mp hpv, by simp⟩
  · intro hk
    rcases List.mem_filter.mp hk with ⟨hkv, hk2⟩
    have hk2c : k.2 = c := decide_eq_true_eq.mp hk2
    have hkk : ((k.1, c) : Key) = k := by
      rw [← hk2c]
    refine List.mem_map.mpr ⟨k.1, List.mem_filter.mpr ⟨fst_mem_programs hkv, ?_⟩, hkk⟩
    exact decide_eq_true_eq.mpr (hkk ▸ hkv)

/-- In the shadowed scenarios of opti.py the "per-category" constraint really
bounds the sum of ALL variables by `frac × total`, which in turn bounds each
category's share by the declared `frac × total` limit. -/
theorem catSum_le_of_shadowed {df : List Row} {x : Key → ℚ} {c : String} {frac : ℚ}
    (hc : c ∈ cats df) (h : feasible df (totalCon df :: optiCatCons df frac) x) :
    catSum df c x ≤ frac * totalFy25 df := by
  have hcon : (⟨varKeys df, Cmp.le, frac * totalFy25 df⟩ : LinCon) ∈
      totalCon df :: optiCatCons df frac :=
    List.mem_cons_of_mem _ (List.mem_map.mpr ⟨c, hc, rfl⟩)
  have hall : ((varKeys df).map x).sum ≤ frac * totalFy25 df := h.2 _ hcon
  have hnn : ∀ k ∈ varKeys df, 0 ≤ x k := fun k hk => (h.1 k hk).1
  exact le_trans (sum_filter_le_sum hnn _) hall

/-- The mean-based category cap of BudgetSenarioAnalysis scenario_2 bounds each
category's allocated sum. -/
theorem catSum_le_bsa {df : List Row} {x : Key → ℚ} {c : String}
    (hc : c ∈ cats df) (h : feasible df (bsa_scenario_2 df) x) :
    catSum df c x ≤ catMeanFy23 df c := by
  rcases List.mem_map.mp (mem_dedupFirst.mp hc) with ⟨r, hr, hrc⟩
  have hkmem : ((r.program, c) : Key) ∈ varKeys df :=
    mem_varKeys.mpr ⟨r, hr, by simp [rowKey, hrc]⟩
  have hpmem : ((r.program, c) : Key) ∈
      ((programs df).filter (fun p => decide ((p, c) ∈ varKeys df))).map (fun p => (p, c)) := by
    refine List.mem_map.mpr ⟨r.program, List.mem_filter.mpr ⟨?_, decide_eq_true_eq.mpr hkmem⟩, rfl⟩
    exact mem_dedupFirst.mpr (List.mem_map.mpr ⟨r, hr, rfl⟩)
  have hne : ((programs df).filter (fun p => decide ((p, c) ∈ varKeys df))).map
      (fun p => ((p, c) : Key)) ≠ [] := by
    intro hnil
    rw [hnil] at hpmem
    exact List.not_mem_nil _ hpmem
  have hcon : (⟨((programs df).filter (fun p => decide ((p, c) ∈ varKeys df))).map
      (fun p => (p, c)), Cmp.le, catMeanFy23 df c⟩ : LinCon) ∈ bsa_scenario_2 df := by
    refine List.mem_append_right _ ?_
    exact List.mem_filter.mpr ⟨List.mem_map.mpr ⟨c, hc, rfl⟩, decide_eq_true_eq.mpr hne⟩
  have hall := h.2 _ hcon
  have hsum : ((((programs df).filter (fun p => decide ((p, c) ∈ varKeys df))).map
      (fun p => ((p, c) : Key))).map x).sum = catSum df c x :=
    List.Perm.sum_eq ((bsaCat_terms_perm df c).map x)
  exact hsum ▸ hall

/-- C2: in every scenario applying a category cap — scenario_3 and scenario_6
of opti.py (fraction-of-grand-total policy, 10% and 30%) and scenario_2 of
BudgetSenarioAnalysis.py (mean-based policy) — every feasible (hence every
optimal) allocation keeps each category's allocated sum within that scenario's
declared per-category limit. -/
theorem category_caps_respected (df : List Row) (x : Key → ℚ) (c : String)
    (hc : c ∈ cats df) :
    (feasible df (opti_scenario_3 df) x → catSum df c x ≤ (1/10) * totalFy25 df) ∧
    (feasible df (opti_scenario_6 df) x → catSum df c x ≤ (3/10) * totalFy25 df) ∧
    (feasible df (bsa_scenario_2 df) x → catSum df c x ≤ catMeanFy23 df c) :=
  ⟨fun h => catSum_le_of_shadowed hc h, fun h => catSum_le_of_shadowed hc h,
   fun h => catSum_le_bsa hc h⟩

/-- Concrete instantiation of `category_caps_respected` on the two-row ledger
at category Personnel. -/
theorem category_caps_respected_witness :
    (feasible exampleDF (opti_scenario_3 exampleDF) (fun _ => 0) →
      catSum exampleDF "Personnel" (fun _ => 0) ≤ (1/10) * totalFy25 exampleDF) ∧
    (feasible exampleDF (opti_scenario_6 exampleDF) (fun _ => 0) →
      catSum exampleDF "Personnel" (fun _ => 0) ≤ (3/10) * totalFy25 exampleDF) ∧
    (feasible exampleDF (bsa_scenario_2 exampleDF) (fun _ => 0) →
      catSum exampleDF "Personnel" (fun _ => 0) ≤ catMeanFy23 exampleDF "Personnel") :=
  category_caps_respected exampleDF (fun _ => 0) "Personnel" (by decide)

/-- A department cap of opti.py scenarios 2/4/5 read off a feasible allocation. -/
theorem deptCap_from_feasible {df : List Row} {x : Key → ℚ} {d : String} {m : ℚ}
    (hd : d ∈ depts df) (h : feasible df (totalCon df :: optiDeptCons df m) x) :
    deptSum df d x ≤ m * deptFy24 df d := by
  have hcon : (⟨deptGroup df d, Cmp.le, m * deptFy24 df d⟩ : LinCon) ∈
      totalCon df :: optiDeptCons df m :=
    List.mem_cons_of_mem _ (List.mem_map.mpr ⟨d, hd, rfl⟩)
  exact h.2 _ hcon

/-- C4: in every scenario applying department caps — scenario_2 (110%),
scenario_4 (100%) and scenario_5 (105%) of opti.py against FY24Appropriation
sums, and scenario_1 of BudgetSenarioAnalysis.py against FY23ActualExpense
sums — every feasible (hence every optimal) allocation keeps each department's
attributed sum at or below its limit; exact inequality, which implies the
claimed 1e-6 relative tolerance.  Nonnegative prior actuals (data-model
invariant) cover the departments to which no variable is attributed. -/
theorem department_caps_respected (df : List Row) (x : Key → ℚ) (d : String)
    (hd : d ∈ depts df) (hnn : ∀ r ∈ df, 0 ≤ r.fy23) :
    (feasible df (opti_scenario_2 df) x → deptSum df d x ≤ (11/10) * deptFy24 df d) ∧
    (feasible df (opti_scenario_4 df) x → deptSum df d x ≤ deptFy24 df d) ∧
    (feasible df (opti_scenario_5 df) x → deptSum df d x ≤ (21/20) * deptFy24 df d) ∧
    (feasible df (bsa_scenario_1 df) x → deptSum df d x ≤ deptFy23 df d) := by
  refine ⟨fun h => deptCap_from_feasible hd h, fun h => ?_,
    fun h => deptCap_from_feasible hd h, fun h => ?_⟩
  · have := deptCap_from_feasible hd h
    simpa using this
  · by_cases hg : deptGroup df d = []
    · have hzero : deptSum df d x = 0 := by
        simp [deptSum, hg]
      rw [hzero]
      unfold deptFy23
      refine List.sum_nonneg ?_
      intro a ha
      rcases List.mem_map.mp ha with ⟨r, hrf, hra⟩
      exact hra ▸ hnn r (List.mem_of_mem_filter hrf)
    · have hcon : (⟨deptGroup df d, Cmp.le, deptFy23 df d⟩ : LinCon) ∈ bsa_scenario_1 df :=
        List.mem_cons_of_mem _
          (List.mem_filter.mpr ⟨List.mem_map.mpr ⟨d, hd, rfl⟩, decide_eq_true_eq.mpr hg⟩)
      exact h.2 _ hcon

/-- Concrete instantiation of `department_caps_respected` on the two-row
ledger at department DeptX. -/
theorem department_caps_respected_witness :
    (feasible exampleDF (opti_scenario_2 exampleDF) (fun _ => 0) →
      deptSum exampleDF "DeptX" (fun _ => 0) ≤ (11/10) * deptFy24 exampleDF "DeptX") ∧
    (feasible exampleDF (opti_scenario_4 exampleDF) (fun _ => 0) →
      deptSum exampleDF "DeptX" (fun _ => 0) ≤ deptFy24 exampleDF "DeptX") ∧
    (feasible exampleDF (opti_scenario_5 exampleDF) (fun _ => 0) →
      deptSum exampleDF "DeptX" (fun _ => 0) ≤ (21/20) * deptFy24 exampleDF "DeptX") ∧
    (feasible exampleDF (bsa_scenario_1 exampleDF) (fun _ => 0) →
      deptSum exampleDF "DeptX" (fun _ => 0) ≤ deptFy23 exampleDF "DeptX") :=
  department_caps_respected exampleDF (fun _ => 0) "DeptX" (by decide) (by decide)

/-- Every row of a protected key program contributes its minimum-funding floor
to the scenario_3/scenario_4 constraint set. -/
theorem bsaFloors_mem {df : List Row} {p : String} {r : Row} (hp : p ∈ keyPrograms)
    (hr : r ∈ df) (hprog : r.program = p) :
    (⟨[(p, r.category)], Cmp.ge, (1/2) * r.fy24⟩ : LinCon) ∈ bsaFloors df := by
  have hkv : ((p, r.category) : Key) ∈ varKeys df :=
    mem_varKeys.mpr ⟨r, hr, by simp [rowKey, hprog]⟩
  refine List.mem_flatten.mpr ⟨_, List.mem_map.mpr ⟨p, hp, rfl⟩, ?_⟩
  refine List.mem_filterMap.mpr
    ⟨r, List.mem_filter.mpr ⟨hr, decide_eq_true_eq.mpr hprog⟩, ?_⟩
  simp [hkv]

/-- On the synthetic ledger `df5`, scenario_3's constraint set is unsatisfiable:
the department cap forces the single variable to 50 or less while the
minimum-funding floor demands at least 60. -/
theorem df5_infeasible : ¬ ∃ x, feasible df5 (bsa_scenario_3 df5) x := by
  rintro ⟨x, hx⟩
  have hd : "DeptX" ∈ depts df5 := by decide
  have hg : deptGroup df5 "DeptX" = [("Public Safety", "Personnel")] := by decide
  have hgne : deptGroup df5 "DeptX" ≠ [] := by decide
  have hcap : (⟨deptGroup df5 "DeptX", Cmp.le, deptFy23 df5 "DeptX"⟩ : LinCon) ∈
      bsa_scenario_3 df5 :=
    List.mem_append_left _ (List.mem_cons_of_mem _
      (List.mem_filter.mpr ⟨List.mem_map.mpr ⟨"DeptX", hd, rfl⟩, decide_eq_true_eq.mpr hgne⟩))
  have h1 : ((deptGroup df5 "DeptX").map x).sum ≤ deptFy23 df5 "DeptX" := hx.2 _ hcap
  have hfy23 : deptFy23 df5 "DeptX" = 50 := by
    have hfil : df5.filter (fun r => decide (r.dept = "DeptX")) = df5 := by decide
    unfold deptFy23
    rw [hfil]
    simp [df5]
  rw [hg, hfy23] at h1
  simp only [List.map_cons, List.map_nil, List.sum_cons, List.sum_nil, add_zero] at h1
  have hrowmem : (⟨"Public Safety", "Personnel", "DeptX", 50, 120, 150⟩ : Row) ∈ df5 :=
    List.mem_singleton.mpr rfl
  have hps : "Public Safety" ∈ keyPrograms := by decide
  have hfl := bsaFloors_mem hps hrowmem rfl
  have h2 : (1/2 : ℚ) * 120 ≤
      (([(("Public Safety", "Personnel") : Key)]).map x).sum :=
    hx.2 _ (List.mem_append_right _ hfl)
  simp only [List.map_cons, List.map_nil, List.sum_cons, List.sum_nil, add_zero] at h2
  norm_num at h2
  linarith

/-- C5 counterexample: the synthetic infeasible instance (floor 60 vs.
department cap 50) does make the LP unsatisfiable, but the caller of
`solve_scenario` does NOT receive a typed Infeasible outcome: the function
returns the empty DataFrame, the very same untyped value an OPTIMAL solve over
an empty ledger returns, so the non-optimal status is not reported to the
caller as claimed. -/
theorem infeasible_not_reported_typed :
    (¬ ∃ x, feasible df5 (bsa_scenario_3 df5) x) ∧
    solve_scenario df5 SolveStatus.INFEASIBLE (fun _ => 0) = [] ∧
    solve_scenario df5 SolveStatus.INFEASIBLE (fun _ => 0) =
      solve_scenario [] SolveStatus.OPTIMAL (fun _ => 0) :=
  ⟨df5_infeasible, rfl, rfl⟩

/-- C5 amended: for an unsatisfiable constraint set (such as the synthetic
floor-versus-department-cap instance, proved unsatisfiable here) the solve
returns an empty DataFrame — zero rows, no numeric allocation result — for
every non-optimal backend status; the status itself is collapsed and not
surfaced as a typed outcome. -/
theorem infeasible_returns_empty (df : List Row) (status : SolveStatus)
    (sol : Key → ℚ) (h : status ≠ SolveStatus.OPTIMAL) :
    solve_scenario df status sol = [] ∧
    ¬ ∃ x, feasible df5 (bsa_scenario_3 df5) x :=
  ⟨by simp [solve_scenario, h], df5_infeasible⟩

/-- Concrete instantiation of `infeasible_returns_empty` at the INFEASIBLE
status on the synthetic ledger. -/
theorem infeasible_returns_empty_witness :
    solve_scenario df5 SolveStatus.INFEASIBLE (fun _ => 0) = [] ∧
    ¬ ∃ x, feasible df5 (bsa_scenario_3 df5) x :=
  infeasible_returns_empty df5 SolveStatus.INFEASIBLE (fun _ => 0) (by decide)

/-- C8: the numeric coercion policy. Loading coerces each budget cell with
`to_numeric(errors='coerce').fillna(0)`: no row is dropped, an unparseable
cell becomes 0, the prepared table is identical to one where every marker is
an explicit 0, and a row whose FY25Budget is unparseable contributes a
zero-valued decision-variable bound when it defines its key's bound. -/
theorem numeric_coercion_policy (raws : List RawRow) (r : RawRow) (h : r ∈ raws)
    (hnone : r.fy25 = none) :
    (prepare_data raws).length = raws.length ∧
    (prepareRow r).fy25 = 0 ∧
    prepare_data raws = prepare_data (raws.map fillZero) ∧
    varUB (prepare_data raws ++ [prepareRow r]) (rowKey (prepareRow r)) = 0 := by
  refine ⟨by simp [prepare_data], by simp [prepareRow, coerceNum, hnone], ?_, ?_⟩
  · show raws.map prepareRow = (raws.map fillZero).map prepareRow
    rw [List.map_map]
    exact List.map_congr_left (fun s _ => by simp [prepareRow, fillZero, coerceNum])
  · unfold varUB
    rw [List.filter_append]
    have h1 : [prepareRow r].filter
        (fun s => decide (rowKey s = rowKey (prepareRow r))) = [prepareRow r] := by
      simp
    rw [h1, List.getLast?_append]
    simp [prepareRow, coerceNum, hnone]

/-- Concrete instantiation of `numeric_coercion_policy` on a one-row raw table
whose FY25Budget cell is an unparseable marker. -/
theorem numeric_coercion_policy_witness :
    (prepare_data [⟨"P", "C", "D", some 1, some 2, none⟩]).length =
      ([⟨"P", "C", "D", some 1, some 2, none⟩] : List RawRow).length ∧
    (prepareRow ⟨"P", "C", "D", some 1, some 2, none⟩).fy25 = 0 ∧
    prepare_data [⟨"P", "C", "D", some 1, some 2, none⟩] =
      prepare_data (([⟨"P", "C", "D", some 1, some 2, none⟩] : List RawRow).map fillZero) ∧
    varUB (prepare_data [⟨"P", "C", "D", some 1, some 2, none⟩] ++
        [prepareRow ⟨"P", "C", "D", some 1, some 2, none⟩])
      (rowKey (prepareRow ⟨"P", "C", "D", some 1, some 2, none⟩)) = 0 :=
  numeric_coercion_policy [⟨"P", "C", "D", some 1, some 2, none⟩]
    ⟨"P", "C", "D", some 1, some 2, none⟩ (List.mem_singleton.mpr rfl) rfl

end BudgetOpt
